import Mathlib

/-!
Shallow embedding of the request dispatcher of `packages/@expo/server/src/index.ts`
(`createRequestHandler` and the `handler` closure it returns), together with
proofs of the behavioural properties of the dispatch pipeline.

Modelling conventions:
* Promises/`async` and JavaScript exceptions are modelled by `Except JSError α`:
  a thrown/rejected value is `.error e`, a resolved value is `.ok v`.
* A JavaScript thrown value need not be an `Error` instance; `JSError.isError`
  records whether `error instanceof Error` holds.
* The mutable closure variable `routesManifest` (the manifest cache) is threaded
  explicitly: `handler` takes the cache before the call and returns the cache
  after the call.
* Invocations of the injected `logApiRouteExecutionError` hook are recorded in a
  returned list (the hook returns `void`, so the list of arguments it was called
  with is its entire observable behaviour).
* The compiled `RegExp` of a route (`namedRegex`) is an external precompiled
  matcher; it is embedded as an abstract pair of a test predicate and a
  capture-group extractor, mirroring the two operations the source uses
  (`regex.test(path)` and `regex.exec(path).groups`).
-/

/-- A JavaScript thrown value: `isError` is `error instanceof Error`,
`message` an identifying payload. -/
structure JSError where
  isError : Bool
  message : String
  deriving DecidableEq

/-- Modelled from the spec: the Response object contract — a status code, a
header mapping and a (text) body. `environment.ts` (ExpoResponse) is not part
of the analysed sources, so the response abstraction follows section 6 of the
spec. -/
structure ExpoResponse where
  status : Nat
  headers : List (String × String)
  body : String
  deriving DecidableEq

/-- Modelled from the spec: a parsed URL facet — a pathname plus the mutable
addressable query-parameter view (`searchParams`), as an ordered list of
name/value pairs. `environment.ts` (ExpoURL) is not part of the analysed
sources. -/
structure ExpoURL where
  pathname : String
  searchParams : List (String × String)
  deriving DecidableEq

/-- Modelled from the spec: the Request object contract — a method string, a
URL (held parsed, standing for the raw `request.url` string that the source
parses with `new URL(...)`/`new ExpoURL(...)`) and the extensible non-standard
metadata slot (`request[NON_STANDARD_SYMBOL] = { url: expoUrl }`). -/
structure ExpoRequest where
  method : String
  url : ExpoURL
  nonStandard : Option ExpoURL
  deriving DecidableEq

/-- Abstract compiled named pattern (`RegExp` with named groups): `test` is
`regex.test(path)`; `exec` returns, on a match, the list of
(capture-group name, captured substring) pairs of `regex.exec(path).groups`
(absent optional groups omitted; `some []` is a match without groups). -/
structure NamedRegex where
  test : String → Bool
  exec : String → Option (List (String × String))

/-- One route descriptor of the manifest (`RouteInfo`). -/
structure RouteInfo where
  page : String
  file : String
  namedRegex : NamedRegex
  routeKeys : List (String × String)

/-- The three-way partitioned route manifest (`ExpoRoutesManifestV1`). -/
structure RoutesManifest where
  htmlRoutes : List RouteInfo
  apiRoutes : List RouteInfo
  notFoundRoutes : List RouteInfo

/-- Result of the injected `getHtml` capability:
`string | ExpoResponse | null`. -/
inductive HtmlContent where
  | null
  | text (s : String)
  | response (r : ExpoResponse)

/-- Parameter mapping handed to an API handler. -/
abbrev Params := List (String × String)

/-- A loaded API handler function: `(request, params) => ResponseObject`,
which may also throw (`.error`). -/
abbrev HandlerFn := ExpoRequest → Params → Except JSError ExpoResponse

/-- Result of the injected `getApiRoute` capability: `null`, a pre-built
`ExpoResponse`, or a module object with handler functions keyed by
HTTP-method name. -/
inductive ApiModuleValue where
  | null
  | response (r : ExpoResponse)
  | module (exports : List (String × HandlerFn))

/-- Association-list lookup (first entry with the given key), used for
`routeKeys[key]`, `func?.[request.method]` and the query-parameter view. -/
def getAssoc {α : Type} : List (String × α) → String → Option α
  | [], _ => none
  | p :: rest, k => if p.1 == k then some p.2 else getAssoc rest k

/-- Association-list overwrite (`searchParams.set` / record assignment):
replaces the first entry with the given key, or appends. -/
def setAssoc {α : Type} : List (String × α) → String → α → List (String × α)
  | [], k, v => [(k, v)]
  | p :: rest, k, v => if p.1 == k then (k, v) :: rest else p :: setAssoc rest k v

/-- The injected capabilities of `createRequestHandler`, plus the `distFolder`
argument, i.e. everything the returned `handler` closes over except the
mutable manifest cache. `getRoutesManifest` is the default manifest loader
(`getRoutesManifest(distFolder)` reading `_expo/routes.json`), which may
throw. -/
structure Env where
  distFolder : String
  getInternalRoutesManifest : Option (String → Except JSError (Option RoutesManifest))
  getRoutesManifest : String → Except JSError RoutesManifest
  getHtml : ExpoRequest → RouteInfo → Except JSError HtmlContent
  getApiRoute : RouteInfo → Except JSError ApiModuleValue

/-- The body of the `for (const [key, value] of Object.entries(match.groups))`
loop of `updateRequestWithConfig`: for each capture, look up the public name
in `routeKeys` (a missing entry yields the JavaScript key `"undefined"`),
set it into the URL's query-parameter view, and record it into `params`. -/
def applyCaptures (routeKeys : List (String × String)) :
    List (String × String) → ExpoURL → Params → ExpoURL × Params
  | [], url, params => (url, params)
  | (key, value) :: rest, url, params =>
      let namedKey := (getAssoc routeKeys key).getD "undefined"
      applyCaptures routeKeys rest
        { url with searchParams := setAssoc url.searchParams namedKey value }
        (setAssoc params namedKey value)

/-- `updateRequestWithConfig(request, config)`: runs the route's pattern over
the request URL's pathname, merges the named captures into the
query-parameter view and the returned `Params`, and stores the updated URL
facet under the non-standard metadata slot. Returns the `Params` together
with the mutated request. -/
def updateRequestWithConfig (request : ExpoRequest) (config : RouteInfo) :
    Params × ExpoRequest :=
  let expoUrl := request.url
  match config.namedRegex.exec expoUrl.pathname with
  | some groups =>
      let up := applyCaptures config.routeKeys groups expoUrl []
      (up.2, { request with nonStandard := some up.1 })
  | none =>
      (([] : Params), { request with nonStandard := some expoUrl })

/-- The synthesized `404 Not found` plain-text response. -/
def notFoundResponse : ExpoResponse :=
  ⟨404, [("Content-Type", "text/plain")], "Not found"⟩

/-- The synthesized `404 No routes manifest found` plain-text response. -/
def noManifestResponse : ExpoResponse :=
  ⟨404, [("Content-Type", "text/plain")], "No routes manifest found"⟩

/-- The synthesized `405 Method not allowed` plain-text response. -/
def methodNotAllowedResponse : ExpoResponse :=
  ⟨405, [("Content-Type", "text/plain")], "Method not allowed"⟩

/-- The synthesized `500 Internal server error` plain-text response. -/
def internalServerErrorResponse : ExpoResponse :=
  ⟨500, [("Content-Type", "text/plain")], "Internal server error"⟩

/-- JavaScript truthiness test `!contents` on the `getHtml` result: `null`
(and `undefined`) and the empty string are falsy; a Response object is always
truthy. -/
def contentsFalsy : HtmlContent → Bool
  | .null => true
  | .text s => s == ""
  | .response _ => false

/-- `func?.[request.method]` on the `getApiRoute` result: optional chaining on
`null` yields `undefined`; on a module it is a property lookup by method name.
(A pre-built response never reaches this lookup in the dispatcher.) -/
def optionalMethodLookup : ApiModuleValue → String → Option HandlerFn
  | .null, _ => none
  | .response _, _ => none
  | .module exports, method => getAssoc exports method

/-- First route of a category whose compiled pattern matches the pathname
(the `for … if (!route.namedRegex.test(sanitizedPathname)) continue;` scan). -/
def matchFirst (routes : List RouteInfo) (pathname : String) : Option RouteInfo :=
  routes.find? (fun route => route.namedRegex.test pathname)

/-- Body of a matched `htmlRoutes` (status 200) or `notFoundRoutes`
(status 404) descriptor: mutate the request via `updateRequestWithConfig`,
resolve contents via `getHtml` (a throw propagates), then: falsy contents →
`404 Not found`; a pre-built response → returned verbatim; a string → wrapped
as `text/html` with the synthesized default status. -/
def serveStaticRoute (env : Env) (request : ExpoRequest) (route : RouteInfo)
    (status : Nat) : Except JSError ExpoResponse :=
  let request := (updateRequestWithConfig request route).2
  match env.getHtml request route with
  | .error e => .error e
  | .ok contents =>
      if contentsFalsy contents then .ok notFoundResponse
      else
        match contents with
        | .response r => .ok r
        | .text s => .ok ⟨status, [("Content-Type", "text/html")], s⟩
        | .null => .ok notFoundResponse

/-- Body of a matched `apiRoutes` descriptor: resolve the module via
`getApiRoute` (a throw propagates); a pre-built response is returned verbatim;
otherwise look up the handler by method (`func?.[request.method]`), absent →
`405`; present → mutate the request, invoke the handler, and catch a thrown
error: an `Error` instance is passed to the error-reporting hook (recorded in
the returned list), then a generic `500` is returned. -/
def serveApiRoute (env : Env) (request : ExpoRequest) (route : RouteInfo) :
    Except JSError (ExpoResponse × List JSError) :=
  match env.getApiRoute route with
  | .error e => .error e
  | .ok (.response r) => .ok (r, [])
  | .ok func =>
      match optionalMethodLookup func request.method with
      | none => .ok (methodNotAllowedResponse, [])
      | some routeHandler =>
          let pr := updateRequestWithConfig request route
          match routeHandler pr.2 pr.1 with
          | .ok r => .ok (r, [])
          | .error e =>
              if e.isError then .ok (internalServerErrorResponse, [e])
              else .ok (internalServerErrorResponse, [])

/-- Steps 3–5 of the dispatcher: the `apiRoutes` scan, then the
`notFoundRoutes` scan (synthesized default status 404), then the final
default `404 Not found`. -/
def apiAndBeyond (env : Env) (manifest : RoutesManifest) (request : ExpoRequest) :
    Except JSError (ExpoResponse × List JSError) :=
  let sanitizedPathname := request.url.pathname
  match matchFirst manifest.apiRoutes sanitizedPathname with
  | some route => serveApiRoute env request route
  | none =>
      match matchFirst manifest.notFoundRoutes sanitizedPathname with
      | some route =>
          (serveStaticRoute env request route 404).map
            (fun r => (r, ([] : List JSError)))
      | none => .ok (notFoundResponse, [])

/-- The matching pipeline of `handler` once a manifest is in hand: the
`htmlRoutes` scan runs only for `GET`/`HEAD` methods (synthesized default
status 200), then `apiAndBeyond`. -/
def dispatchWithManifest (env : Env) (manifest : RoutesManifest)
    (request : ExpoRequest) : Except JSError (ExpoResponse × List JSError) :=
  let sanitizedPathname := request.url.pathname
  if request.method == "GET" || request.method == "HEAD" then
    match matchFirst manifest.htmlRoutes sanitizedPathname with
    | some route =>
        (serveStaticRoute env request route 200).map
          (fun r => (r, ([] : List JSError)))
    | none => apiAndBeyond env manifest request
  else apiAndBeyond env manifest request

/-- The dispatcher returned by `createRequestHandler`: manifest acquisition
(per-request supplier if configured — a `null` result yields the diagnostic
404 and leaves the cache untouched; otherwise the cached manifest, or the
default loader whose result is cached), then `dispatchWithManifest`.
Returns the response, the manifest cache after the call, and the list of
arguments the error-reporting hook was invoked with. -/
def handler (env : Env) (routesManifest : Option RoutesManifest)
    (request : ExpoRequest) :
    Except JSError (ExpoResponse × Option RoutesManifest × List JSError) :=
  match env.getInternalRoutesManifest with
  | some getInternal =>
      match getInternal env.distFolder with
      | .error e => .error e
      | .ok (some manifest) =>
          (dispatchWithManifest env manifest request).map
            (fun rl => (rl.1, some manifest, rl.2))
      | .ok none => .ok (noManifestResponse, routesManifest, [])
  | none =>
      match routesManifest with
      | some manifest =>
          (dispatchWithManifest env manifest request).map
            (fun rl => (rl.1, routesManifest, rl.2))
      | none =>
          match env.getRoutesManifest env.distFolder with
          | .error e => .error e
          | .ok manifest =>
              (dispatchWithManifest env manifest request).map
                (fun rl => (rl.1, some manifest, rl.2))

example : setAssoc [("a", "1"), ("b", "2")] "a" "3" = [("a", "3"), ("b", "2")] := by decide
example : getAssoc (setAssoc [("a", "1")] "b" "2") "b" = some "2" := by decide

/-! Helper lemmas about the association-list operations and the first-match
scan. -/

theorem getAssoc_setAssoc_self {α : Type} (l : List (String × α)) (k : String)
    (v : α) : getAssoc (setAssoc l k v) k = some v := by
  induction l with
  | nil => simp [setAssoc, getAssoc]
  | cons p rest ih =>
      by_cases hp : (p.1 == k) = true
      · simp [setAssoc, getAssoc, hp]
      · simp only [setAssoc, hp, if_false, getAssoc]
        simp only [Bool.not_eq_true] at hp
        simp [hp, ih]

theorem getAssoc_setAssoc_ne {α : Type} (l : List (String × α)) (k k' : String)
    (v : α) (h : k ≠ k') : getAssoc (setAssoc l k v) k' = getAssoc l k' := by
  induction l with
  | nil => simp [setAssoc, getAssoc, h]
  | cons p rest ih =>
      by_cases hp : (p.1 == k) = true
      · have hpk : p.1 = k := by exact eq_of_beq hp
        simp [setAssoc, getAssoc, hp, hpk, h]
      · simp only [setAssoc, hp, if_false, getAssoc]
        by_cases hp' : (p.1 == k') = true
        · simp [hp']
        · simp only [Bool.not_eq_true] at hp'
          simp [hp', ih]

theorem find?_middle {α : Type} (p : α → Bool) (l1 l2 : List α) (x : α)
    (h1 : ∀ y ∈ l1, p y = false) (hx : p x = true) :
    (l1 ++ x :: l2).find? p = some x := by
  induction l1 with
  | nil => simp [List.find?, hx]
  | cons a t ih =>
      have ha : p a = false := h1 a (by simp)
      simp only [List.cons_append, List.find?, ha]
      exact ih (fun y hy => h1 y (by simp [hy]))

/-- Public name a capture-group key is mapped to by `routeKeys` (a missing
entry yields the JavaScript coercion `"undefined"`). -/
def publicName (routeKeys : List (String × String)) (key : String) : String :=
  (getAssoc routeKeys key).getD "undefined"

theorem applyCaptures_get_not_mem (routeKeys : List (String × String))
    (groups : List (String × String)) (url : ExpoURL) (params : Params)
    (nk : String) (h : ∀ g ∈ groups, publicName routeKeys g.1 ≠ nk) :
    getAssoc (applyCaptures routeKeys groups url params).1.searchParams nk
      = getAssoc url.searchParams nk ∧
    getAssoc (applyCaptures routeKeys groups url params).2 nk
      = getAssoc params nk := by
  induction groups generalizing url params with
  | nil => exact ⟨rfl, rfl⟩
  | cons g rest ih =>
      obtain ⟨key, value⟩ := g
      have hk : publicName routeKeys key ≠ nk := h (key, value) (by simp)
      have ihr := ih
        { url with searchParams :=
            setAssoc url.searchParams (publicName routeKeys key) value }
        (setAssoc params (publicName routeKeys key) value)
        (fun g hg => h g (by simp [hg]))
      simp only [applyCaptures, publicName] at ihr ⊢
      refine ⟨?_, ?_⟩
      · rw [ihr.1]
        exact getAssoc_setAssoc_ne _ _ _ _ hk
      · rw [ihr.2]
        exact getAssoc_setAssoc_ne _ _ _ _ hk

theorem applyCaptures_get_mem (routeKeys : List (String × String))
    (groups : List (String × String)) (url : ExpoURL) (params : Params)
    (hnd : (groups.map (fun g => publicName routeKeys g.1)).Nodup) :
    ∀ g ∈ groups,
      getAssoc (applyCaptures routeKeys groups url params).1.searchParams
        (publicName routeKeys g.1) = some g.2 ∧
      getAssoc (applyCaptures routeKeys groups url params).2
        (publicName routeKeys g.1) = some g.2 := by
  induction groups generalizing url params with
  | nil => intro g hg; cases hg
  | cons g0 rest ih =>
      obtain ⟨key, value⟩ := g0
      simp only [List.map_cons, List.nodup_cons, List.mem_map] at hnd
      intro g hg
      rcases List.mem_cons.mp hg with hg0 | hgr
      · subst hg0
        have hnotmem : ∀ g' ∈ rest, publicName routeKeys g'.1 ≠
            publicName routeKeys key := by
          intro g' hg' hcontra
          exact hnd.1 ⟨g', hg', hcontra⟩
        have hpres := applyCaptures_get_not_mem routeKeys rest
          { url with searchParams :=
              setAssoc url.searchParams (publicName routeKeys key) value }
          (setAssoc params (publicName routeKeys key) value)
          (publicName routeKeys key) hnotmem
        simp only [applyCaptures, publicName] at hpres ⊢
        refine ⟨?_, ?_⟩
        · rw [hpres.1]
          exact getAssoc_setAssoc_self _ _ _
        · rw [hpres.2]
          exact getAssoc_setAssoc_self _ _ _
      · have := ih
          { url with searchParams :=
              setAssoc url.searchParams (publicName routeKeys key) value }
          (setAssoc params (publicName routeKeys key) value) hnd.2 g hgr
        simpa only [applyCaptures, publicName] using this

/-! Wrap-up lemmas relating the dispatcher phases to `handler`. -/

theorem serveStaticRoute_ok (env : Env) (request : ExpoRequest)
    (route : RouteInfo) (status : Nat)
    (hhtml : ∀ req r, ∃ c, env.getHtml req r = .ok c) :
    ∃ r, serveStaticRoute env request route status = .ok r := by
  obtain ⟨c, hc⟩ := hhtml (updateRequestWithConfig request route).2 route
  by_cases hf : contentsFalsy c = true
  · exact ⟨notFoundResponse, by simp [serveStaticRoute, hc, hf]⟩
  · have hf' : contentsFalsy c = false := by simpa using hf
    cases c with
    | null => simp [contentsFalsy] at hf'
    | text s =>
        exact ⟨⟨status, [("Content-Type", "text/html")], s⟩,
          by simp [serveStaticRoute, hc, hf']⟩
    | response r => exact ⟨r, by simp [serveStaticRoute, hc, hf']⟩

theorem serveApiRoute_ok (env : Env) (request : ExpoRequest) (route : RouteInfo)
    (hapi : ∀ r, ∃ v, env.getApiRoute r = .ok v) :
    ∃ rl, serveApiRoute env request route = .ok rl := by
  obtain ⟨v, hv⟩ := hapi route
  cases v with
  | null =>
      exact ⟨(methodNotAllowedResponse, []),
        by simp [serveApiRoute, hv, optionalMethodLookup]⟩
  | response r => exact ⟨(r, []), by simp [serveApiRoute, hv]⟩
  | module exports =>
      cases hm : getAssoc exports request.method with
      | none =>
          exact ⟨(methodNotAllowedResponse, []),
            by simp [serveApiRoute, hv, optionalMethodLookup, hm]⟩
      | some routeHandler =>
          cases hr : routeHandler (updateRequestWithConfig request route).2
              (updateRequestWithConfig request route).1 with
          | ok r =>
              exact ⟨(r, []),
                by simp [serveApiRoute, hv, optionalMethodLookup, hm, hr]⟩
          | error e =>
              by_cases he : e.isError = true
              · exact ⟨(internalServerErrorResponse, [e]),
                  by simp [serveApiRoute, hv, optionalMethodLookup, hm, hr, he]⟩
              · exact ⟨(internalServerErrorResponse, []),
                  by simp [serveApiRoute, hv, optionalMethodLookup, hm, hr, he]⟩

theorem apiAndBeyond_ok (env : Env) (manifest : RoutesManifest)
    (request : ExpoRequest)
    (hhtml : ∀ req r, ∃ c, env.getHtml req r = .ok c)
    (hapi : ∀ r, ∃ v, env.getApiRoute r = .ok v) :
    ∃ rl, apiAndBeyond env manifest request = .ok rl := by
  cases hm : matchFirst manifest.apiRoutes request.url.pathname with
  | some route =>
      obtain ⟨rl, hrl⟩ := serveApiRoute_ok env request route hapi
      exact ⟨rl, by simp [apiAndBeyond, hm, hrl]⟩
  | none =>
      cases hn : matchFirst manifest.notFoundRoutes request.url.pathname with
      | some route =>
          obtain ⟨r, hr⟩ := serveStaticRoute_ok env request route 404 hhtml
          exact ⟨(r, []), by simp [apiAndBeyond, hm, hn, hr, Except.map]⟩
      | none => exact ⟨(notFoundResponse, []), by simp [apiAndBeyond, hm, hn]⟩

theorem dispatchWithManifest_ok (env : Env) (manifest : RoutesManifest)
    (request : ExpoRequest)
    (hhtml : ∀ req r, ∃ c, env.getHtml req r = .ok c)
    (hapi : ∀ r, ∃ v, env.getApiRoute r = .ok v) :
    ∃ rl, dispatchWithManifest env manifest request = .ok rl := by
  by_cases hg : (request.method == "GET" || request.method == "HEAD") = true
  · cases hm : matchFirst manifest.htmlRoutes request.url.pathname with
    | some route =>
        obtain ⟨r, hr⟩ := serveStaticRoute_ok env request route 200 hhtml
        exact ⟨(r, []), by simp [dispatchWithManifest, hg, hm, hr, Except.map]⟩
    | none =>
        obtain ⟨rl, hrl⟩ := apiAndBeyond_ok env manifest request hhtml hapi
        exact ⟨rl, by simp [dispatchWithManifest, hg, hm, hrl]⟩
  · obtain ⟨rl, hrl⟩ := apiAndBeyond_ok env manifest request hhtml hapi
    exact ⟨rl, by simp [dispatchWithManifest, hg, hrl]⟩

theorem handler_of_htmlMatch (env : Env) (manifest : RoutesManifest)
    (request : ExpoRequest) (route : RouteInfo) (r : ExpoResponse)
    (hsup : env.getInternalRoutesManifest = none)
    (hg : (request.method == "GET" || request.method == "HEAD") = true)
    (hfind : matchFirst manifest.htmlRoutes request.url.pathname = some route)
    (hs : serveStaticRoute env request route 200 = .ok r) :
    handler env (some manifest) request = .ok (r, some manifest, []) := by
  simp [handler, hsup, dispatchWithManifest, hg, hfind, hs, Except.map]

theorem handler_of_apiAndBeyond (env : Env) (manifest : RoutesManifest)
    (request : ExpoRequest) (out : ExpoResponse × List JSError)
    (hsup : env.getInternalRoutesManifest = none)
    (hhtml : (request.method == "GET" || request.method == "HEAD") = true →
      matchFirst manifest.htmlRoutes request.url.pathname = none)
    (hb : apiAndBeyond env manifest request = .ok out) :
    handler env (some manifest) request = .ok (out.1, some manifest, out.2) := by
  by_cases hg : (request.method == "GET" || request.method == "HEAD") = true
  · simp [handler, hsup, dispatchWithManifest, hg, hhtml hg, hb, Except.map]
  · simp [handler, hsup, dispatchWithManifest, hg, hb, Except.map]

theorem apiAndBeyond_of_serveApi (env : Env) (manifest : RoutesManifest)
    (request : ExpoRequest) (route : RouteInfo) (rl : ExpoResponse × List JSError)
    (hfind : matchFirst manifest.apiRoutes request.url.pathname = some route)
    (hs : serveApiRoute env request route = .ok rl) :
    apiAndBeyond env manifest request = .ok rl := by
  simp [apiAndBeyond, hfind, hs]

/-! Concrete fixtures used by witnesses and counterexamples. -/

/-- Precompiled matcher that matches exactly one literal path, with no capture
groups. -/
def literalRegex (path : String) : NamedRegex :=
  { test := fun p => p == path
    exec := fun p => if p == path then some [] else none }

/-- A descriptor matching the literal path `/a`. -/
def routeA : RouteInfo :=
  { page := "a", file := "a.js", namedRegex := literalRegex "/a", routeKeys := [] }

/-- A second descriptor also matching `/a` (declared later than `routeA` in
the fixtures that use both). -/
def routeB : RouteInfo :=
  { page := "b", file := "b.js", namedRegex := literalRegex "/a", routeKeys := [] }

/-- Precompiled matcher standing for the compiled pattern of `/users/[id]`,
evaluated at the single path `/users/42`. -/
def usersRegex : NamedRegex :=
  { test := fun p => p == "/users/42"
    exec := fun p => if p == "/users/42" then some [("id", "42")] else none }

/-- Descriptor for `/users/[id]` with the `id` route key. -/
def usersRoute : RouteInfo :=
  { page := "users/[id]", file := "users/[id].js", namedRegex := usersRegex
    routeKeys := [("id", "id")] }

def urlA : ExpoURL := { pathname := "/a", searchParams := [] }

def reqGetA : ExpoRequest := { method := "GET", url := urlA, nonStandard := none }

def reqPostA : ExpoRequest := { method := "POST", url := urlA, nonStandard := none }

def emptyManifest : RoutesManifest := ⟨[], [], []⟩

def apiManifestA : RoutesManifest := ⟨[], [routeA], []⟩

def htmlManifestA : RoutesManifest := ⟨[routeA], [], []⟩

def nfManifestA : RoutesManifest := ⟨[], [], [routeA]⟩

/-- Baseline capability record: no per-request supplier, default loader
yielding the empty manifest, `getHtml` resolving to null, `getApiRoute`
resolving to null. -/
def baseEnv : Env :=
  { distFolder := "dist"
    getInternalRoutesManifest := none
    getRoutesManifest := fun _ => .ok emptyManifest
    getHtml := fun _ _ => .ok .null
    getApiRoute := fun _ => .ok .null }

/-- A thrown `Error` instance. -/
def errBoom : JSError := ⟨true, "boom"⟩

/-- A thrown value that is not an `Error` instance (e.g. a thrown string). -/
def strBoom : JSError := ⟨false, "boom"⟩

def envHtmlThrows : Env := { baseEnv with getHtml := fun _ _ => .error errBoom }

/-! Claim C1. -/

/-- C1 counterexample: with an injected `getHtml` capability that throws, a
dispatch of a matching GET request does not yield a Response — the exception
escapes the dispatcher boundary (`handler` rejects with the thrown error), so
the claim as stated (exception freedom regardless of the behaviour of the
injected capabilities) is false. -/
theorem C1_counterexample :
    handler envHtmlThrows (some htmlManifestA) reqGetA = .error errBoom ∧
    ¬ ∃ out, handler envHtmlThrows (some htmlManifestA) reqGetA = .ok out := by
  refine ⟨rfl, ?_⟩
  rintro ⟨out, hout⟩
  have h1 : handler envHtmlThrows (some htmlManifestA) reqGetA = .error errBoom := rfl
  rw [h1] at hout
  exact Except.noConfusion hout

/-- C1 (amended): whenever every injected capability (per-request manifest
supplier, default manifest loader, `getHtml`, `getApiRoute`) resolves rather
than throwing, every dispatch call yields exactly one Response (`handler`
returns `.ok`), regardless of the behaviour of the matched API handler —
which may itself throw. -/
theorem C1_dispatch_total (env : Env) (cache : Option RoutesManifest)
    (request : ExpoRequest)
    (hsup : ∀ f, env.getInternalRoutesManifest = some f →
      ∃ v, f env.distFolder = .ok v)
    (hload : ∃ m, env.getRoutesManifest env.distFolder = .ok m)
    (hhtml : ∀ req route, ∃ c, env.getHtml req route = .ok c)
    (hapi : ∀ route, ∃ v, env.getApiRoute route = .ok v) :
    ∃ out, handler env cache request = .ok out := by
  cases hsupc : env.getInternalRoutesManifest with
  | some f =>
      obtain ⟨v, hv⟩ := hsup f hsupc
      cases v with
      | some manifest =>
          obtain ⟨rl, hrl⟩ := dispatchWithManifest_ok env manifest request hhtml hapi
          exact ⟨(rl.1, some manifest, rl.2),
            by simp [handler, hsupc, hv, hrl, Except.map]⟩
      | none =>
          exact ⟨(noManifestResponse, cache, []), by simp [handler, hsupc, hv]⟩
  | none =>
      cases cache with
      | some manifest =>
          obtain ⟨rl, hrl⟩ := dispatchWithManifest_ok env manifest request hhtml hapi
          exact ⟨(rl.1, some manifest, rl.2),
            by simp [handler, hsupc, hrl, Except.map]⟩
      | none =>
          obtain ⟨m, hm⟩ := hload
          obtain ⟨rl, hrl⟩ := dispatchWithManifest_ok env m request hhtml hapi
          exact ⟨(rl.1, some m, rl.2),
            by simp [handler, hsupc, hm, hrl, Except.map]⟩

/-- Capability record whose API module has a GET handler that throws an
`Error` instance; all capabilities themselves resolve. -/
def envApiThrows : Env :=
  { baseEnv with
    getApiRoute := fun _ => .ok (.module [("GET", fun _ _ => .error errBoom)]) }

/-- C1 witness: a dispatch whose matched API handler throws still yields a
Response. -/
theorem C1_witness :
    ∃ out, handler envApiThrows (some apiManifestA) reqGetA = .ok out :=
  C1_dispatch_total envApiThrows (some apiManifestA) reqGetA
    (fun _ hf => nomatch hf)
    ⟨emptyManifest, rfl⟩
    (fun _ _ => ⟨.null, rfl⟩)
    (fun _ => ⟨_, rfl⟩)

/-! Claim C2. -/

/-- C2 counterexample: a request matching an API descriptor whose resolver
yields null produces the `405 Method not allowed` plain-text response, not a
404 — `func?.[request.method]` on `null` is `undefined`, which takes the
method-not-allowed branch. -/
theorem C2_counterexample :
    handler baseEnv (some apiManifestA) reqGetA
      = .ok (methodNotAllowedResponse, some apiManifestA, []) ∧
    methodNotAllowedResponse.status = 405 ∧
    methodNotAllowedResponse.status ≠ 404 :=
  ⟨rfl, rfl, by decide⟩

/-- C2 (amended): for every request that matches an apiRoutes descriptor and
for which the injected `getApiRoute` resolver returns null, the dispatcher
returns a 405 response with plain-text content type (the null module is
treated like a module lacking the requested method, not as missing
content). -/
theorem C2_null_api_module_405 (env : Env) (manifest : RoutesManifest)
    (request : ExpoRequest) (route : RouteInfo)
    (hsup : env.getInternalRoutesManifest = none)
    (hhtml : (request.method == "GET" || request.method == "HEAD") = true →
      matchFirst manifest.htmlRoutes request.url.pathname = none)
    (hfind : matchFirst manifest.apiRoutes request.url.pathname = some route)
    (hnull : env.getApiRoute route = .ok .null) :
    handler env (some manifest) request
      = .ok (methodNotAllowedResponse, some manifest, []) := by
  have hb : apiAndBeyond env manifest request = .ok (methodNotAllowedResponse, []) :=
    apiAndBeyond_of_serveApi env manifest request route _ hfind
      (by simp [serveApiRoute, hnull, optionalMethodLookup])
  exact handler_of_apiAndBeyond env manifest request _ hsup hhtml hb

/-- C2 witness: concrete dispatch of `GET /a` against a manifest whose only
API route matches `/a`, with a null-yielding resolver. -/
theorem C2_witness :
    handler baseEnv (some apiManifestA) reqGetA
      = .ok (methodNotAllowedResponse, some apiManifestA, []) :=
  C2_null_api_module_405 baseEnv apiManifestA reqGetA routeA rfl
    (fun _ => rfl) rfl rfl

/-! Claim C3. -/

/-- Capability record whose API module has a GET handler throwing a value
that is not an `Error` instance. -/
def envApiThrowsNonError : Env :=
  { baseEnv with
    getApiRoute := fun _ => .ok (.module [("GET", fun _ _ => .error strBoom)]) }

/-- C3 counterexample: a matched API handler that raises a value which is not
an `Error` instance (in JavaScript any value can be thrown) still yields the
generic 500 plain-text response, but the error-reporting hook is invoked zero
times, not exactly once — the `instanceof Error` guard skips the hook. -/
theorem C3_counterexample :
    handler envApiThrowsNonError (some apiManifestA) reqGetA
      = .ok (internalServerErrorResponse, some apiManifestA, []) ∧
    ([] : List JSError) ≠ [strBoom] :=
  ⟨rfl, by decide⟩

/-- C3 (amended): when a matched API handler raises, the response is exactly
the generic `500 Internal server error` plain-text response, whose body is a
constant never containing the raised error; the error-reporting hook is
invoked exactly once with the raised error if it is an `Error` instance, and
not at all otherwise. -/
theorem C3_handler_fault_500 (env : Env) (manifest : RoutesManifest)
    (request : ExpoRequest) (route : RouteInfo)
    (exports : List (String × HandlerFn)) (routeHandler : HandlerFn)
    (e : JSError)
    (hsup : env.getInternalRoutesManifest = none)
    (hhtml : (request.method == "GET" || request.method == "HEAD") = true →
      matchFirst manifest.htmlRoutes request.url.pathname = none)
    (hfind : matchFirst manifest.apiRoutes request.url.pathname = some route)
    (hmod : env.getApiRoute route = .ok (.module exports))
    (hlook : getAssoc exports request.method = some routeHandler)
    (hthrow : routeHandler (updateRequestWithConfig request route).2
      (updateRequestWithConfig request route).1 = .error e) :
    handler env (some manifest) request
      = .ok (internalServerErrorResponse, some manifest,
          if e.isError then [e] else []) := by
  have hserve : serveApiRoute env request route
      = .ok (internalServerErrorResponse, if e.isError then [e] else []) := by
    by_cases he : e.isError = true
    · simp [serveApiRoute, hmod, optionalMethodLookup, hlook, hthrow, he]
    · simp [serveApiRoute, hmod, optionalMethodLookup, hlook, hthrow, he]
  have hb := apiAndBeyond_of_serveApi env manifest request route _ hfind hserve
  exact handler_of_apiAndBeyond env manifest request _ hsup hhtml hb

/-- C3 witness: a handler throwing an `Error` instance produces the 500
response and exactly one hook invocation carrying that error. -/
theorem C3_witness :
    handler envApiThrows (some apiManifestA) reqGetA
      = .ok (internalServerErrorResponse, some apiManifestA,
          if errBoom.isError then [errBoom] else []) :=
  C3_handler_fault_500 envApiThrows apiManifestA reqGetA routeA
    [("GET", fun _ _ => .error errBoom)] (fun _ _ => .error errBoom) errBoom
    rfl (fun _ => rfl) rfl rfl rfl rfl

/-! Claim C4. -/

/-- C4: first-match-wins in every category. If every descriptor before
`earlier` fails the pattern test and `earlier` matches, then (1) for a
GET/HEAD request the HTML phase dispatches `earlier`, (2) the API phase
dispatches `earlier`, and (3) the not-found phase dispatches `earlier` —
in each case the result is literally the serve of `earlier`, independent of
the arbitrary tail `l2` of later descriptors, so a later matching
descriptor's resolver or handler is never invoked. -/
theorem C4_first_match_wins (env : Env) (request : ExpoRequest)
    (l1 l2 : List RouteInfo) (earlier : RouteInfo)
    (h1 : ∀ r ∈ l1, r.namedRegex.test request.url.pathname = false)
    (h2 : earlier.namedRegex.test request.url.pathname = true) :
    (∀ api nf : List RouteInfo,
      (request.method == "GET" || request.method == "HEAD") = true →
      dispatchWithManifest env ⟨l1 ++ earlier :: l2, api, nf⟩ request
        = (serveStaticRoute env request earlier 200).map
            (fun r => (r, ([] : List JSError))))
    ∧ (∀ html nf : List RouteInfo,
      apiAndBeyond env ⟨html, l1 ++ earlier :: l2, nf⟩ request
        = serveApiRoute env request earlier)
    ∧ (∀ html api : List RouteInfo,
      matchFirst api request.url.pathname = none →
      apiAndBeyond env ⟨html, api, l1 ++ earlier :: l2⟩ request
        = (serveStaticRoute env request earlier 404).map
            (fun r => (r, ([] : List JSError)))) := by
  have hfind : matchFirst (l1 ++ earlier :: l2) request.url.pathname
      = some earlier := find?_middle _ l1 l2 earlier h1 h2
  refine ⟨?_, ?_, ?_⟩
  · intro api nf hg
    simp only [dispatchWithManifest, hg, if_true]
    rw [hfind]
  · intro html nf
    simp only [apiAndBeyond]
    rw [hfind]
  · intro html api hnone
    simp only [apiAndBeyond]
    rw [hnone, hfind]

/-- C4 witness: with two descriptors both matching `/a`, the HTML phase and
the API phase each dispatch the earlier descriptor `routeA`; the later
`routeB` never reaches its resolver. -/
theorem C4_witness :
    dispatchWithManifest baseEnv ⟨[routeA, routeB], [], []⟩ reqGetA
      = (serveStaticRoute baseEnv reqGetA routeA 200).map
          (fun r => (r, ([] : List JSError)))
    ∧ apiAndBeyond baseEnv ⟨[], [routeA, routeB], []⟩ reqGetA
        = serveApiRoute baseEnv reqGetA routeA := by
  have h := C4_first_match_wins baseEnv reqGetA [] [routeB] routeA
    (fun r hr => by cases hr) rfl
  exact ⟨h.1 [] [] rfl, h.2.1 [] []⟩

/-! Claim C5. -/

/-- C5: for a matched descriptor with named captures, under the manifest
invariant that every capture-group name has a `routeKeys` entry (and the
public names are pairwise distinct), the `Params` mapping produced by
`updateRequestWithConfig` maps each public name to its captured substring,
and the request's query-parameter view (the URL facet stored in the
non-standard slot) contains the same pairs — overwriting any existing value
of the same name. -/
theorem C5_augmentation (request : ExpoRequest) (config : RouteInfo)
    (groups : List (String × String))
    (hexec : config.namedRegex.exec request.url.pathname = some groups)
    (_hkeys : ∀ g ∈ groups, (getAssoc config.routeKeys g.1).isSome = true)
    (hnd : (groups.map (fun g => publicName config.routeKeys g.1)).Nodup) :
    ∀ g ∈ groups, ∀ nk, getAssoc config.routeKeys g.1 = some nk →
      getAssoc (updateRequestWithConfig request config).1 nk = some g.2 ∧
      ∃ u, (updateRequestWithConfig request config).2.nonStandard = some u ∧
        getAssoc u.searchParams nk = some g.2 := by
  intro g hg nk hnk
  have hmem := applyCaptures_get_mem config.routeKeys groups request.url [] hnd g hg
  have hpn : publicName config.routeKeys g.1 = nk := by simp [publicName, hnk]
  rw [hpn] at hmem
  simp only [updateRequestWithConfig, hexec]
  exact ⟨hmem.2, (applyCaptures config.routeKeys groups request.url []).1,
    rfl, hmem.1⟩

/-- URL for `/users/42` carrying a pre-existing `id` query parameter, so the
witness also exhibits the overwrite. -/
def urlUsers : ExpoURL := { pathname := "/users/42", searchParams := [("id", "old")] }

def reqUsers : ExpoRequest := { method := "GET", url := urlUsers, nonStandard := none }

/-- C5 witness: `GET /users/42` against the `/users/[id]` descriptor yields
`Params` with `id ↦ 42`, and the augmented query-parameter view holds
`id ↦ 42`, overwriting the pre-existing value `old`. -/
theorem C5_witness :
    getAssoc (updateRequestWithConfig reqUsers usersRoute).1 "id" = some "42" ∧
    ∃ u, (updateRequestWithConfig reqUsers usersRoute).2.nonStandard = some u ∧
      getAssoc u.searchParams "id" = some "42" :=
  C5_augmentation reqUsers usersRoute [("id", "42")] rfl
    (by decide) (by decide) ("id", "42") (by decide) "id" rfl

/-! Claim C6. -/

/-- C6: for every GET or HEAD request whose path matches an htmlRoutes
descriptor (first match) and whose content resolves via `getHtml` to a
non-empty string, the dispatcher returns a 200 response with `text/html`
content type and a body equal to that string. -/
theorem C6_html_route_200 (env : Env) (manifest : RoutesManifest)
    (request : ExpoRequest) (route : RouteInfo) (s : String)
    (hsup : env.getInternalRoutesManifest = none)
    (hg : (request.method == "GET" || request.method == "HEAD") = true)
    (hfind : matchFirst manifest.htmlRoutes request.url.pathname = some route)
    (hcontent : env.getHtml (updateRequestWithConfig request route).2 route
      = .ok (.text s))
    (hne : s ≠ "") :
    handler env (some manifest) request
      = .ok (⟨200, [("Content-Type", "text/html")], s⟩, some manifest, []) := by
  have hfalsy : contentsFalsy (.text s) = false := by
    simpa [contentsFalsy] using beq_eq_false_iff_ne.mpr hne
  have hs : serveStaticRoute env request route 200
      = .ok ⟨200, [("Content-Type", "text/html")], s⟩ := by
    simp [serveStaticRoute, hcontent, hfalsy]
  exact handler_of_htmlMatch env manifest request route _ hsup hg hfind hs

/-- Capability record whose `getHtml` resolves every route to the string
`"hello"`. -/
def envHtmlHello : Env := { baseEnv with getHtml := fun _ _ => .ok (.text "hello") }

/-- C6 witness: `GET /a` against a manifest whose only HTML route matches
`/a`, with contents `"hello"`, yields `200 text/html hello`. -/
theorem C6_witness :
    handler envHtmlHello (some htmlManifestA) reqGetA
      = .ok (⟨200, [("Content-Type", "text/html")], "hello"⟩,
          some htmlManifestA, []) :=
  C6_html_route_200 envHtmlHello htmlManifestA reqGetA routeA "hello"
    rfl rfl rfl rfl (by decide)

/-! Claim C7. -/

/-- C7: (1) for a request whose method is neither GET nor HEAD, the
htmlRoutes sequence is never scanned or dispatched — the dispatch equals the
API-onward pipeline and is invariant under replacing `htmlRoutes` by an
arbitrary other sequence; (2) the apiRoutes scan is reached for every method
once the HTML phase yields nothing (it is not method-gated); (3) the
notFoundRoutes scan runs for any method that reaches it, and its synthesized
default status is 404 instead of 200. -/
theorem C7_method_gating :
    (∀ (env : Env) (manifest : RoutesManifest) (request : ExpoRequest),
      (request.method == "GET" || request.method == "HEAD") = false →
      ∀ htmlRoutes2 : List RouteInfo,
        dispatchWithManifest env manifest request
          = apiAndBeyond env manifest request ∧
        dispatchWithManifest env { manifest with htmlRoutes := htmlRoutes2 }
            request
          = dispatchWithManifest env manifest request)
    ∧ (∀ (env : Env) (manifest : RoutesManifest) (request : ExpoRequest),
      (request.method == "GET" || request.method == "HEAD") = true →
      matchFirst manifest.htmlRoutes request.url.pathname = none →
      dispatchWithManifest env manifest request
        = apiAndBeyond env manifest request)
    ∧ (∀ (env : Env) (manifest : RoutesManifest) (request : ExpoRequest)
        (route : RouteInfo) (s : String),
      matchFirst manifest.apiRoutes request.url.pathname = none →
      matchFirst manifest.notFoundRoutes request.url.pathname = some route →
      env.getHtml (updateRequestWithConfig request route).2 route
        = .ok (.text s) →
      s ≠ "" →
      apiAndBeyond env manifest request
        = .ok (⟨404, [("Content-Type", "text/html")], s⟩, [])) := by
  refine ⟨?_, ?_, ?_⟩
  · intro env manifest request hg htmlRoutes2
    constructor
    · simp [dispatchWithManifest, hg]
    · simp [dispatchWithManifest, hg, apiAndBeyond]
  · intro env manifest request hg hnone
    simp [dispatchWithManifest, hg, hnone]
  · intro env manifest request route s hapi hnf hcontent hne
    have hfalsy : contentsFalsy (.text s) = false := by
      simpa [contentsFalsy] using beq_eq_false_iff_ne.mpr hne
    have hs : serveStaticRoute env request route 404
        = .ok ⟨404, [("Content-Type", "text/html")], s⟩ := by
      simp [serveStaticRoute, hcontent, hfalsy]
    simp [apiAndBeyond, hapi, hnf, hs, Except.map]

/-- C7 witness: a POST request bypasses a matching HTML route; a GET request
with no HTML match reaches the API-onward pipeline; a matched not-found route
with non-empty content is synthesized with status 404. -/
theorem C7_witness :
    dispatchWithManifest baseEnv htmlManifestA reqPostA
      = apiAndBeyond baseEnv htmlManifestA reqPostA
    ∧ dispatchWithManifest baseEnv emptyManifest reqGetA
        = apiAndBeyond baseEnv emptyManifest reqGetA
    ∧ apiAndBeyond envHtmlHello nfManifestA reqGetA
        = .ok (⟨404, [("Content-Type", "text/html")], "hello"⟩, []) :=
  ⟨(C7_method_gating.1 baseEnv htmlManifestA reqPostA (by decide) []).1,
   C7_method_gating.2.1 baseEnv emptyManifest reqGetA rfl rfl,
   C7_method_gating.2.2 envHtmlHello nfManifestA reqGetA routeA "hello"
     rfl rfl rfl (by decide)⟩

/-! Claim C8. -/

/-- C8: whenever a per-request manifest supplier is configured and yields
null for the current dispatch, the dispatcher returns the diagnostic
`404 No routes manifest found` plain-text response, leaves the manifest cache
untouched (even if a manifest was previously cached), and never invokes the
error-reporting hook. -/
theorem C8_null_supplier_404 (env : Env)
    (f : String → Except JSError (Option RoutesManifest))
    (cache : Option RoutesManifest) (request : ExpoRequest)
    (hsup : env.getInternalRoutesManifest = some f)
    (hnull : f env.distFolder = .ok none) :
    handler env cache request = .ok (noManifestResponse, cache, []) := by
  simp [handler, hsup, hnull]

/-- Capability record with a per-request supplier that yields no manifest. -/
def envNullSupplier : Env :=
  { baseEnv with getInternalRoutesManifest := some (fun _ => .ok none) }

/-- C8 witness: with a previously cached manifest and a null-yielding
supplier, the dispatch still returns the diagnostic 404 and keeps the cache. -/
theorem C8_witness :
    handler envNullSupplier (some htmlManifestA) reqGetA
      = .ok (noManifestResponse, some htmlManifestA, []) :=
  C8_null_supplier_404 envNullSupplier _ (some htmlManifestA) reqGetA rfl rfl

/-! Claim C9. -/

/-- C9: dispatch is idempotent across the threaded manifest-cache state — if
a dispatch of a request yields a response and an updated cache, dispatching
a structurally identical request against that updated cache yields the
structurally identical outcome (response, cache and hook log). The injected
capabilities are pure functions in this embedding, matching the claim's
purity assumption. -/
theorem C9_idempotent (env : Env) (cache : Option RoutesManifest)
    (request : ExpoRequest)
    (out : ExpoResponse × Option RoutesManifest × List JSError)
    (h : handler env cache request = .ok out) :
    handler env out.2.1 request = .ok out := by
  cases hsup : env.getInternalRoutesManifest with
  | some f =>
      cases hv : f env.distFolder with
      | error e => simp [handler, hsup, hv] at h
      | ok v =>
          cases v with
          | some manifest =>
              simp only [handler, hsup, hv] at h ⊢
              exact h
          | none =>
              simp only [handler, hsup, hv] at h ⊢
              injection h with h2
              subst h2
              rfl
  | none =>
      cases cache with
      | some manifest =>
          simp only [handler, hsup] at h ⊢
          cases hd : dispatchWithManifest env manifest request with
          | error e => rw [hd] at h; simp [Except.map] at h
          | ok rl =>
              rw [hd] at h
              simp only [Except.map] at h
              injection h with h2
              subst h2
              simp only []
              rw [hd]
              simp [Except.map]
      | none =>
          simp only [handler, hsup] at h ⊢
          cases hm : env.getRoutesManifest env.distFolder with
          | error e => simp [hm] at h
          | ok manifest =>
              simp only [hm] at h
              cases hd : dispatchWithManifest env manifest request with
              | error e => rw [hd] at h; simp [Except.map] at h
              | ok rl =>
                  rw [hd] at h
                  simp only [Except.map] at h
                  injection h with h2
                  subst h2
                  simp [hd, Except.map]

/-- C9 witness: a first dispatch populates the cache with the loaded
manifest; re-dispatching the identical request against the returned cache
reproduces the identical outcome. -/
theorem C9_witness :
    handler baseEnv none reqGetA
      = .ok (notFoundResponse, some emptyManifest, []) ∧
    handler baseEnv
        ((notFoundResponse, some emptyManifest, ([] : List JSError)).2.1)
        reqGetA
      = .ok (notFoundResponse, some emptyManifest, []) :=
  ⟨rfl, C9_idempotent baseEnv none reqGetA _ rfl⟩

/-! Claim C10. -/

/-- C10: for a GET/HEAD request matching an htmlRoutes (first conjunct) or
notFoundRoutes (second conjunct) descriptor for which `getHtml` returns the
empty string, the dispatcher returns the `404 Not found` plain-text
response — the empty string is treated like null (content unavailable), not
as valid empty HTML content. -/
theorem C10_empty_content_404 (env : Env) (manifest : RoutesManifest)
    (request : ExpoRequest) (route : RouteInfo)
    (hsup : env.getInternalRoutesManifest = none)
    (hg : (request.method == "GET" || request.method == "HEAD") = true)
    (hcontent : env.getHtml (updateRequestWithConfig request route).2 route
      = .ok (.text "")) :
    (matchFirst manifest.htmlRoutes request.url.pathname = some route →
      handler env (some manifest) request
        = .ok (notFoundResponse, some manifest, []))
    ∧ (matchFirst manifest.htmlRoutes request.url.pathname = none →
       matchFirst manifest.apiRoutes request.url.pathname = none →
       matchFirst manifest.notFoundRoutes request.url.pathname = some route →
       handler env (some manifest) request
         = .ok (notFoundResponse, some manifest, [])) := by
  have hserve : ∀ status, serveStaticRoute env request route status
      = .ok notFoundResponse := by
    intro status
    simp [serveStaticRoute, hcontent, contentsFalsy]
  refine ⟨?_, ?_⟩
  · intro hfind
    exact handler_of_htmlMatch env manifest request route _ hsup hg hfind
      (hserve 200)
  · intro hh ha hn
    have hb : apiAndBeyond env manifest request = .ok (notFoundResponse, []) := by
      simp [apiAndBeyond, ha, hn, hserve 404, Except.map]
    exact handler_of_apiAndBeyond env manifest request _ hsup (fun _ => hh) hb

/-- Capability record whose `getHtml` resolves every route to the empty
string. -/
def envHtmlEmpty : Env := { baseEnv with getHtml := fun _ _ => .ok (.text "") }

/-- C10 witness: empty-string content yields `404 Not found` both for a
matched HTML route and for a matched not-found route. -/
theorem C10_witness :
    handler envHtmlEmpty (some htmlManifestA) reqGetA
      = .ok (notFoundResponse, some htmlManifestA, []) ∧
    handler envHtmlEmpty (some nfManifestA) reqGetA
      = .ok (notFoundResponse, some nfManifestA, []) :=
  ⟨(C10_empty_content_404 envHtmlEmpty htmlManifestA reqGetA routeA
      rfl rfl rfl).1 rfl,
   (C10_empty_content_404 envHtmlEmpty nfManifestA reqGetA routeA
      rfl rfl rfl).2 rfl rfl rfl⟩
